import Mathlib

/-
Verification of the ChemoCareAI backend's treatment workflow and
dosing/risk engine.  The Python handlers in
`backend/app/api/v1/protocols.py` and `backend/app/api/v1/ai.py` are
embedded as pure Lean functions: the database becomes an explicit
`Store` record (id-indexed partial maps), every mutating endpoint
becomes a function `Store → ... → Store × Except ApiError α` whose
first component is the committed store (unchanged when the handler
raises before commit), timestamps (`datetime.utcnow()`) become an
explicit `now : Nat` argument, and Python float arithmetic is embedded
as exact rational arithmetic over `ℚ` (`ℝ` where a square root is
taken).  Fields of the SQLAlchemy models that no endpoint studied here
reads or writes (ids, audit timestamps, JSON blobs such as
`custom_protocol`, and the `DrugAdministration` fan-out) are omitted
from the records.
-/

namespace ChemoCare

/-- Treatment plan status options (`PlanStatus` in `models/treatment.py`). -/
inductive PlanStatus where
  | draft
  | pendingOpdApproval
  | pendingDaycareApproval
  | approved
  | active
  | completed
  | cancelled
  | onHold
deriving DecidableEq, Repr

/-- Treatment cycle status options (`CycleStatus` in `models/treatment.py`). -/
inductive CycleStatus where
  | scheduled
  | preAssessment
  | approved
  | inProgress
  | completed
  | delayed
  | cancelled
deriving DecidableEq, Repr

/-- Error outcomes of the workflow handlers: `notFound` is HTTP 404
("... not found"), `invalidState` is the HTTP 400 raised by
`start_cycle` ("Cycle must be approved before starting"). -/
inductive ApiError where
  | notFound
  | invalidState
deriving DecidableEq, Repr

/-- The `TreatmentPlan` row (`models/treatment.py`), restricted to the
fields the workflow endpoints read or write.  Doctor ids and dates are
abstracted to `Nat`. -/
structure TreatmentPlan where
  patientId : Nat
  protocolName : String
  startDate : Option Nat
  plannedCycles : Int
  completedCycles : Int
  status : PlanStatus
  opdApprovedBy : Option Nat
  opdApprovedAt : Option Nat
  opdNotes : Option String
  daycareApprovedBy : Option Nat
  daycareApprovedAt : Option Nat
  daycareNotes : Option String
deriving DecidableEq, Repr

/-- The `TreatmentCycle` row (`models/treatment.py`), restricted to the
fields the workflow endpoints read or write. -/
structure TreatmentCycle where
  planId : Nat
  cycleNumber : Int
  scheduledDate : Nat
  status : CycleStatus
  daycareDoctorId : Option Nat
  approvedAt : Option Nat
  approvalNotes : Option String
  startedAt : Option Nat
  completedAt : Option Nat
  dischargeNotes : Option String
  followUpInstructions : Option String
deriving DecidableEq, Repr

/-- Request body of `POST /treatment-plans` (`TreatmentPlanCreate` in
`schemas/treatment.py`); `planned_cycles` is an unconstrained `int`. -/
structure PlanCreate where
  patientId : Nat
  protocolName : String
  startDate : Option Nat
  plannedCycles : Int
  opdNotes : Option String
deriving DecidableEq, Repr

/-- Request body of `PUT /treatment-plans/{id}` (`TreatmentPlanUpdate`):
every field is optional and only the fields that were set are applied
(`model_dump(exclude_unset=True)`).  Note that `completed_cycles` is
not among the updatable fields. -/
structure PlanUpdate where
  protocolName : Option String
  startDate : Option Nat
  plannedCycles : Option Int
  status : Option PlanStatus
  opdNotes : Option String
  daycareNotes : Option String
deriving DecidableEq, Repr

/-- The database, as id-indexed partial maps.  Patients are abstracted
to their ids `0, ..., patients - 1`; new plan/cycle rows are assigned
the next fresh id. -/
structure Store where
  patients : Nat
  nextPlanId : Nat
  plans : Nat → Option TreatmentPlan
  nextCycleId : Nat
  cycles : Nat → Option TreatmentCycle

/-- Write plan row `pid`. -/
def setPlan (s : Store) (pid : Nat) (p : TreatmentPlan) : Store :=
  { s with plans := fun i => if i = pid then some p else s.plans i }

/-- Write cycle row `cid`. -/
def setCycle (s : Store) (cid : Nat) (c : TreatmentCycle) : Store :=
  { s with cycles := fun i => if i = cid then some c else s.cycles i }

/-- `POST /treatment-plans` (`create_treatment_plan` in
`api/v1/protocols.py`): 404 if the patient does not exist, otherwise a
new plan row in `DRAFT` with `completed_cycles = 0`. -/
def create_treatment_plan (s : Store) (d : PlanCreate) :
    Store × Except ApiError Nat :=
  if d.patientId < s.patients then
    let plan : TreatmentPlan :=
      { patientId := d.patientId
        protocolName := d.protocolName
        startDate := d.startDate
        plannedCycles := d.plannedCycles
        completedCycles := 0
        status := .draft
        opdApprovedBy := none
        opdApprovedAt := none
        opdNotes := d.opdNotes
        daycareApprovedBy := none
        daycareApprovedAt := none
        daycareNotes := none }
    ({ setPlan s s.nextPlanId plan with nextPlanId := s.nextPlanId + 1 },
      .ok s.nextPlanId)
  else
    (s, .error .notFound)

/-- Field-wise application of a `TreatmentPlanUpdate`
(`setattr(plan, field, value)` for each set field). -/
def applyPlanUpdate (p : TreatmentPlan) (u : PlanUpdate) : TreatmentPlan :=
  { p with
    protocolName := u.protocolName.getD p.protocolName
    startDate := match u.startDate with
      | some d => some d
      | none => p.startDate
    plannedCycles := u.plannedCycles.getD p.plannedCycles
    status := u.status.getD p.status
    opdNotes := match u.opdNotes with
      | some n => some n
      | none => p.opdNotes
    daycareNotes := match u.daycareNotes with
      | some n => some n
      | none => p.daycareNotes }

/-- `PUT /treatment-plans/{plan_id}` (`update_treatment_plan`). -/
def update_treatment_plan (s : Store) (pid : Nat) (u : PlanUpdate) :
    Store × Except ApiError Unit :=
  match s.plans pid with
  | none => (s, .error .notFound)
  | some p => (setPlan s pid (applyPlanUpdate p u), .ok ())

/-- `POST /treatment-plans/{plan_id}/approve-opd` (`approve_opd`):
unconditionally stamps the OPD approval fields and moves the status to
`PENDING_DAYCARE_APPROVAL`; `doctor` is `doctor.id if doctor else None`. -/
def approve_opd (s : Store) (pid : Nat) (doctor : Option Nat)
    (notes : Option String) (now : Nat) : Store × Except ApiError Unit :=
  match s.plans pid with
  | none => (s, .error .notFound)
  | some p =>
      (setPlan s pid
        { p with
          opdApprovedBy := doctor
          opdApprovedAt := some now
          opdNotes := notes
          status := .pendingDaycareApproval }, .ok ())

/-- `POST /treatment-plans/{plan_id}/approve-daycare` (`approve_daycare`):
same pattern as `approve_opd`, status moves to `APPROVED`. -/
def approve_daycare (s : Store) (pid : Nat) (doctor : Option Nat)
    (notes : Option String) (now : Nat) : Store × Except ApiError Unit :=
  match s.plans pid with
  | none => (s, .error .notFound)
  | some p =>
      (setPlan s pid
        { p with
          daycareApprovedBy := doctor
          daycareApprovedAt := some now
          daycareNotes := notes
          status := .approved }, .ok ())

/-- `POST /treatment-plans/{plan_id}/cycles` (`create_cycle`): 404 if
the plan is missing, otherwise a new cycle row in `SCHEDULED`.  (The
drug-administration fan-out from `custom_protocol` touches only the
`DrugAdministration` table and is not modelled.) -/
def create_cycle (s : Store) (pid : Nat) (cycleNumber : Int)
    (scheduledDate : Nat) : Store × Except ApiError Nat :=
  match s.plans pid with
  | none => (s, .error .notFound)
  | some _ =>
      let c : TreatmentCycle :=
        { planId := pid
          cycleNumber := cycleNumber
          scheduledDate := scheduledDate
          status := .scheduled
          daycareDoctorId := none
          approvedAt := none
          approvalNotes := none
          startedAt := none
          completedAt := none
          dischargeNotes := none
          followUpInstructions := none }
      ({ setCycle s s.nextCycleId c with nextCycleId := s.nextCycleId + 1 },
        .ok s.nextCycleId)

/-- `POST /cycles/{cycle_id}/approve` (`approve_cycle`): unconditional,
stamps approval fields and sets status `APPROVED`. -/
def approve_cycle (s : Store) (cid : Nat) (doctor : Option Nat)
    (notes : Option String) (now : Nat) : Store × Except ApiError Unit :=
  match s.cycles cid with
  | none => (s, .error .notFound)
  | some c =>
      (setCycle s cid
        { c with
          daycareDoctorId := doctor
          approvedAt := some now
          approvalNotes := notes
          status := .approved }, .ok ())

/-- `POST /cycles/{cycle_id}/start` (`start_cycle`): 404 if the cycle is
missing, 400 `invalidState` unless the status is exactly `APPROVED`;
on success stamps `started_at` and sets `IN_PROGRESS`. -/
def start_cycle (s : Store) (cid : Nat) (now : Nat) :
    Store × Except ApiError Unit :=
  match s.cycles cid with
  | none => (s, .error .notFound)
  | some c =>
      if c.status ≠ CycleStatus.approved then
        (s, .error .invalidState)
      else
        (setCycle s cid
          { c with startedAt := some now, status := .inProgress }, .ok ())

/-- `POST /cycles/{cycle_id}/complete` (`complete_cycle`): unguarded;
marks the cycle `COMPLETED`, then (when the parent plan row exists)
increments the plan's `completed_cycles` and, if the new count is `>=
planned_cycles`, sets the plan status to `COMPLETED` — all in the same
commit. -/
def complete_cycle (s : Store) (cid : Nat) (dischargeNotes : Option String)
    (followUp : Option String) (now : Nat) : Store × Except ApiError Unit :=
  match s.cycles cid with
  | none => (s, .error .notFound)
  | some c =>
      let c2 : TreatmentCycle :=
        { c with
          completedAt := some now
          status := .completed
          dischargeNotes := dischargeNotes
          followUpInstructions := followUp }
      let s1 := setCycle s cid c2
      match s1.plans c.planId with
      | none => (s1, .ok ())
      | some p =>
          let p2 : TreatmentPlan :=
            { p with
              completedCycles := p.completedCycles + 1
              status :=
                if p.plannedCycles ≤ p.completedCycles + 1 then
                  PlanStatus.completed
                else p.status }
          (setPlan s1 c.planId p2, .ok ())

/-- One workflow request, for reasoning about reachable stores. -/
inductive Op where
  | createPlan (d : PlanCreate)
  | updatePlan (pid : Nat) (u : PlanUpdate)
  | approveOpd (pid : Nat) (doctor : Option Nat) (notes : Option String) (now : Nat)
  | approveDaycare (pid : Nat) (doctor : Option Nat) (notes : Option String) (now : Nat)
  | createCycle (pid : Nat) (cycleNumber : Int) (scheduledDate : Nat)
  | approveCycle (cid : Nat) (doctor : Option Nat) (notes : Option String) (now : Nat)
  | startCycle (cid : Nat) (now : Nat)
  | completeCycle (cid : Nat) (dischargeNotes : Option String)
      (followUp : Option String) (now : Nat)
deriving DecidableEq, Repr

/-- The store after serving one request (errors commit nothing). -/
def step (s : Store) : Op → Store
  | .createPlan d => (create_treatment_plan s d).1
  | .updatePlan pid u => (update_treatment_plan s pid u).1
  | .approveOpd pid doctor notes now => (approve_opd s pid doctor notes now).1
  | .approveDaycare pid doctor notes now => (approve_daycare s pid doctor notes now).1
  | .createCycle pid n d => (create_cycle s pid n d).1
  | .approveCycle cid doctor notes now => (approve_cycle s cid doctor notes now).1
  | .startCycle cid now => (start_cycle s cid now).1
  | .completeCycle cid dn fu now => (complete_cycle s cid dn fu now).1

/-- The store after serving a sequence of requests. -/
def exec (s : Store) : List Op → Store
  | [] => s
  | op :: ops => exec (step s op) ops

/-- A fresh deployment with a single registered patient (id 0) and
empty plan/cycle tables. -/
def initStore : Store :=
  { patients := 1
    nextPlanId := 0
    plans := fun _ => none
    nextCycleId := 0
    cycles := fun _ => none }

/-! Dosing & risk engine (`backend/app/api/v1/ai.py`) and the derived
`Patient.bsa` property (`backend/app/models/patient.py`).  Python float
arithmetic is embedded as exact arithmetic; `round(x, 2)` becomes
`round2`. -/

/-- Python's `str.lower()`, as a character-wise map (the drug names and
comorbidity labels involved are plain ASCII). -/
def strLower (s : String) : String := ⟨s.data.map Char.toLower⟩

/-- `round(x, 2)`: round to two decimal places. -/
def round2 {α : Type} [LinearOrderedField α] [FloorRing α] (x : α) : α :=
  ((round (x * 100) : ℤ) : α) / 100

/-- The `Patient` row, restricted to the physical measurements the
`bsa` property reads.  `Numeric` columns are nullable, and Python
truthiness also treats a stored `0` as falsy. -/
structure Patient where
  height_cm : Option ℝ
  weight_kg : Option ℝ

/-- The `Patient.bsa` property: `round(((height * weight) / 3600) ** 0.5, 2)`
when `height_cm and weight_kg` is truthy (both non-`None` and nonzero),
else `0.0`.  The `** 0.5` on a nonnegative operand is `Real.sqrt`. -/
noncomputable def Patient.bsa (p : Patient) : ℝ :=
  match p.height_cm, p.weight_kg with
  | some h, some w =>
      if h ≠ 0 ∧ w ≠ 0 then round2 (Real.sqrt (h * w / 3600)) else 0
  | _, _ => 0

/-- Modelled from the spec sentence "for all patients,
`bsa == round(sqrt(height_cm*weight_kg/3600), 2)`; `bsa == 0` when
height or weight missing": the value the specification promises. -/
noncomputable def bsa_spec (p : Patient) : ℝ :=
  match p.height_cm, p.weight_kg with
  | some h, some w => round2 (Real.sqrt (h * w / 3600))
  | _, _ => 0

/-- Request body of `POST /ai/dose-calculator` (`DoseCalculationRequest`). -/
structure DoseRequest where
  drug_name : String
  dose_per_m2 : ℚ
  bsa : ℚ
  patient_age : Int
  renal_function : Option ℚ
  liver_function : Option ℚ
deriving DecidableEq, Repr

/-- The adjustment notes `calculate_dose` can append, keyed by content:
`cappedAt c` stands for the f-string "Capped at {c}mg". -/
inductive Adjustment where
  | cappedAt (cap : ℚ)
  | elderlyReduction
  | renalReduction
  | hepaticReduction
deriving DecidableEq, Repr

/-- The warnings `calculate_dose` can append. -/
inductive DoseWarning where
  | elderlyToxicity
  | renalMonitor
  | liverMonitor
deriving DecidableEq, Repr

/-- Response of `POST /ai/dose-calculator` (`DoseCalculationResponse`). -/
structure DoseResponse where
  dose : ℚ
  unit : String
  adjustments : List Adjustment
  warnings : List DoseWarning
deriving DecidableEq, Repr

/-- The per-drug absolute cap table `dose_caps` in `calculate_dose`. -/
def dose_caps : List (String × ℚ) := [("vincristine", 2), ("bleomycin", 30)]

/-- True when an optional lab value is present and above a threshold:
Python `value and value > threshold` (a `None` or `0.0` value is falsy). -/
def exceeds (x : Option ℚ) (threshold : ℚ) : Bool :=
  match x with
  | some v => v > threshold
  | none => false

/-- `POST /ai/dose-calculator` (`calculate_dose` in `api/v1/ai.py`):
`base_dose = dose_per_m2 * bsa`; a cap-table hit with `base_dose`
above the cap truncates it and notes the cap; age/renal/hepatic checks
append advisory notes; the response dose is `round(base_dose, 2)`. -/
def calculate_dose (r : DoseRequest) : DoseResponse :=
  let drug_lower := strLower r.drug_name
  let capStep : ℚ × List Adjustment :=
    match dose_caps.lookup drug_lower with
    | some cap =>
        if r.dose_per_m2 * r.bsa > cap then (cap, [Adjustment.cappedAt cap])
        else (r.dose_per_m2 * r.bsa, [])
    | none => (r.dose_per_m2 * r.bsa, [])
  let renalHit := exceeds r.renal_function 1.5 &&
    decide (drug_lower ∈ ["cisplatin", "carboplatin", "methotrexate"])
  let liverHit := exceeds r.liver_function 2 &&
    decide (drug_lower ∈ ["doxorubicin", "vincristine", "paclitaxel"])
  { dose := round2 capStep.1
    unit := "mg"
    adjustments :=
      capStep.2 ++
      (if r.patient_age > 70 then [Adjustment.elderlyReduction] else []) ++
      (if renalHit then [Adjustment.renalReduction] else []) ++
      (if liverHit then [Adjustment.hepaticReduction] else [])
    warnings :=
      (if r.patient_age > 70 then [DoseWarning.elderlyToxicity] else []) ++
      (if renalHit then [DoseWarning.renalMonitor] else []) ++
      (if liverHit then [DoseWarning.liverMonitor] else []) }

/-- The patient attributes `assess_risk` reads: the derived `age`
property and the `comorbidities` JSON list. -/
structure RiskProfile where
  age : Int
  comorbidities : List String
deriving DecidableEq, Repr

/-- One entry of the `risks` list built by `assess_risk`. -/
structure RiskEntry where
  category : String
  risk : String
  probability : ℚ
  severity : String
  recommendations : List String
deriving DecidableEq, Repr

/-- Response of `POST /ai/risk-assessment` (the `patient_id` echo and
the fixed general recommendations are omitted). -/
structure RiskResult where
  protocol : String
  cycle_number : Int
  overall_risk_score : ℚ
  risks : List RiskEntry
deriving DecidableEq, Repr

/-- `POST /ai/risk-assessment` (`assess_risk` in `api/v1/ai.py`):
age > 65, the comorbidities "diabetes"/"hypertension" (compared on the
lowercased list), and an always-appended febrile-neutropenia entry with
probability `min(0.2 + cycle_number * 0.05, 0.5)`; the overall score is
`sum(probabilities) / len(risks)` when the list is nonempty, else 0. -/
def assess_risk (p : RiskProfile) (protocolName : String)
    (cycle_number : Int) : RiskResult :=
  let comorbiditiesL := p.comorbidities.map strLower
  let neutropenia_risk : ℚ := min (0.2 + (cycle_number : ℚ) * 0.05) 0.5
  let risks : List RiskEntry :=
    (if p.age > 65 then
      [{ category := "Age-related"
         risk := "Increased toxicity"
         probability := 0.35
         severity := "moderate"
         recommendations := ["Closer monitoring", "Consider dose reduction"] }]
     else []) ++
    (if "diabetes" ∈ comorbiditiesL then
      [{ category := "Comorbidity"
         risk := "Steroid-induced hyperglycemia"
         probability := 0.6
         severity := "moderate"
         recommendations := ["Monitor blood glucose", "Adjust diabetes medications"] }]
     else []) ++
    (if "hypertension" ∈ comorbiditiesL then
      [{ category := "Comorbidity"
         risk := "Blood pressure fluctuations"
         probability := 0.4
         severity := "low"
         recommendations := ["Regular BP monitoring", "Continue antihypertensives"] }]
     else []) ++
    [{ category := "Hematological"
       risk := "Febrile neutropenia"
       probability := neutropenia_risk
       severity := if neutropenia_risk > 0.3 then "high" else "moderate"
       recommendations := ["G-CSF prophylaxis if risk > 20%",
                           "Patient education on fever management"] }]
  { protocol := protocolName
    cycle_number := cycle_number
    overall_risk_score :=
      if risks.isEmpty then 0
      else (risks.map (·.probability)).sum / (risks.length : ℚ)
    risks := risks }

/-- One value of the fixed `interactions_db` table. -/
structure Interaction where
  severity : String
  effect : String
  recommendation : String
deriving DecidableEq, Repr

/-- The fixed pair-keyed interaction table in `check_drug_interactions`. -/
def interactions_db : List ((String × String) × Interaction) :=
  [(("methotrexate", "nsaids"),
    { severity := "high"
      effect := "Increased methotrexate toxicity due to decreased renal clearance"
      recommendation := "Avoid NSAIDs or use with extreme caution" }),
   (("methotrexate", "ibuprofen"),
    { severity := "high"
      effect := "Increased methotrexate toxicity"
      recommendation := "Avoid concomitant use" }),
   (("5-fluorouracil", "warfarin"),
    { severity := "high"
      effect := "Increased anticoagulant effect and bleeding risk"
      recommendation := "Monitor INR closely, may need warfarin dose reduction" }),
   (("cisplatin", "aminoglycosides"),
    { severity := "high"
      effect := "Additive nephrotoxicity and ototoxicity"
      recommendation := "Avoid combination if possible" }),
   (("doxorubicin", "trastuzumab"),
    { severity := "moderate"
      effect := "Additive cardiotoxicity"
      recommendation := "Monitor cardiac function closely" }),
   (("paclitaxel", "ketoconazole"),
    { severity := "moderate"
      effect := "Increased paclitaxel levels"
      recommendation := "Consider dose reduction or alternative antifungal" })]

/-- Response of `POST /ai/drug-interactions`: each found entry keeps
its `(drug1, drug2)` key next to the table value (the handler returns
`{"drugs": [drug1, drug2], **interaction}`). -/
structure InteractionsResult where
  chemo_drugs : List String
  current_medications : List String
  interactions_found : Nat
  interactions : List ((String × String) × Interaction)
  recommendation : String
deriving DecidableEq, Repr

/-- `POST /ai/drug-interactions` (`check_drug_interactions`): both input
lists are lowercased, and an entry matches when (drug1 ∈ chemo and
drug2 ∈ meds) or (drug2 ∈ chemo and drug1 ∈ meds) or (both drugs ∈
chemo); every matching entry is collected. -/
def check_drug_interactions (chemo meds : List String) : InteractionsResult :=
  let chemoL := chemo.map strLower
  let medsL := meds.map strLower
  let found := interactions_db.filter fun e =>
    (decide (e.1.1 ∈ chemoL) && decide (e.1.2 ∈ medsL)) ||
    (decide (e.1.2 ∈ chemoL) && decide (e.1.1 ∈ medsL)) ||
    (decide (e.1.1 ∈ chemoL) && decide (e.1.2 ∈ chemoL))
  { chemo_drugs := chemo
    current_medications := meds
    interactions_found := found.length
    interactions := found
    recommendation :=
      if found.isEmpty then "No significant interactions found"
      else "Review with pharmacist" }

/-- The symptom payload fields `analyze_symptoms` reads, with the
defaults the handler uses for missing keys (`False` / `0`). -/
structure SymptomInput where
  has_fever : Bool
  nausea_score : ℚ
  pain_score : ℚ
  fatigue_score : ℚ
  has_diarrhea : Bool
  has_mouth_sores : Bool
deriving DecidableEq, Repr

/-- One alert dict appended by `analyze_symptoms`. -/
structure SymptomFlag where
  kind : String
  severity : String
  message : String
deriving DecidableEq, Repr

/-- Response of `POST /ai/symptom-analysis`. -/
structure SymptomResult where
  severity_score : ℚ
  alert_level : String
  alerts : List SymptomFlag
  recommendations : List String
  action_required : Bool
deriving DecidableEq, Repr

/-- `POST /ai/symptom-analysis` (`analyze_symptoms`): six independent
weighted contributions accumulate into `severity_score`, thresholds
`> 0.6 → "urgent"`, `> 0.3 → "monitor"`, else `"normal"`; the returned
score is `round(severity_score, 2)`. -/
def analyze_symptoms (s : SymptomInput) : SymptomResult :=
  let severity_score : ℚ :=
    (if s.has_fever then 0.4 else 0) +
    (if s.nausea_score ≥ 7 then 0.3 else 0) +
    (if s.pain_score ≥ 7 then 0.3 else 0) +
    (if s.fatigue_score ≥ 8 then 0.2 else 0) +
    (if s.has_diarrhea then 0.2 else 0) +
    (if s.has_mouth_sores then 0.15 else 0)
  let alert_level :=
    if severity_score > 0.6 then "urgent"
    else if severity_score > 0.3 then "monitor"
    else "normal"
  { severity_score := round2 severity_score
    alert_level := alert_level
    alerts :=
      (if s.has_fever then
        [{ kind := "fever", severity := "high"
           message := "Fever during chemotherapy requires immediate evaluation" }]
       else []) ++
      (if s.nausea_score ≥ 7 then
        [{ kind := "nausea", severity := "moderate"
           message := "Severe nausea may require antiemetic adjustment" }]
       else []) ++
      (if s.pain_score ≥ 7 then
        [{ kind := "pain", severity := "moderate"
           message := "Severe pain requires attention" }]
       else [])
    recommendations :=
      (if s.has_fever then
        ["Check CBC immediately to rule out febrile neutropenia"] else []) ++
      (if s.nausea_score ≥ 7 then
        ["Consider adding/adjusting antiemetic regimen"] else []) ++
      (if s.pain_score ≥ 7 then
        ["Assess pain and consider analgesia adjustment"] else []) ++
      (if s.fatigue_score ≥ 8 then
        ["Evaluate for anemia, consider energy conservation strategies"] else []) ++
      (if s.has_diarrhea then
        ["Assess hydration status, consider antidiarrheal medications"] else []) ++
      (if s.has_mouth_sores then
        ["Oral care protocol, consider magic mouthwash"] else [])
    action_required :=
      (if severity_score > 0.6 then "urgent"
       else if severity_score > 0.3 then "monitor"
       else "normal") == "urgent" }

/-! Helper lemmas about two-decimal rounding. -/

/-- Rounding to two decimals is monotone. -/
theorem round2_mono {x y : ℚ} (h : x ≤ y) : round2 x ≤ round2 y := by
  unfold round2
  have hr : round (x * 100) ≤ round (y * 100) := by
    rw [round_eq, round_eq]
    exact Int.floor_le_floor (by linarith)
  have hc : ((round (x * 100) : ℤ) : ℚ) ≤ ((round (y * 100) : ℤ) : ℚ) := by
    exact_mod_cast hr
  linarith

/-- Rounding to two decimals fixes any value with at most two decimals. -/
theorem round2_eq_self {x : ℚ} (k : ℤ) (h : x * 100 = (k : ℚ)) : round2 x = x := by
  unfold round2
  rw [h, round_intCast, ← h]
  field_simp

/-! C1 — `start_cycle` is the one guarded transition. -/

/-- C1: for an existing cycle whose status is not `APPROVED`,
`start_cycle` fails with the invalid-state error and commits nothing, so
the cycle's status and `started_at` are unchanged; for a cycle whose
status is exactly `APPROVED` it succeeds, setting `IN_PROGRESS` and
stamping `started_at`. -/
theorem start_cycle_guarded (s : Store) (cid : Nat) (c : TreatmentCycle)
    (now : Nat) (hc : s.cycles cid = some c) :
    (c.status ≠ CycleStatus.approved →
      start_cycle s cid now = (s, Except.error ApiError.invalidState) ∧
      (start_cycle s cid now).1.cycles cid = some c) ∧
    (c.status = CycleStatus.approved →
      start_cycle s cid now =
        (setCycle s cid { c with startedAt := some now, status := .inProgress },
          Except.ok ())) := by
  constructor
  · intro h
    constructor <;> simp [start_cycle, hc, h]
  · intro h
    simp [start_cycle, hc, h]

/-- A cycle record used to exercise `start_cycle` at concrete inputs. -/
def demoCycle (st : CycleStatus) : TreatmentCycle :=
  { planId := 0
    cycleNumber := 1
    scheduledDate := 0
    status := st
    daycareDoctorId := none
    approvedAt := none
    approvalNotes := none
    startedAt := none
    completedAt := none
    dischargeNotes := none
    followUpInstructions := none }

/-- A store holding a `SCHEDULED` cycle (id 0) and an `APPROVED` cycle (id 1). -/
def demoCycleStore : Store :=
  { patients := 1
    nextPlanId := 0
    plans := fun _ => none
    nextCycleId := 2
    cycles := fun i =>
      if i = 0 then some (demoCycle .scheduled)
      else if i = 1 then some (demoCycle .approved) else none }

/-- Witness for C1 at concrete inputs: starting the `SCHEDULED` cycle
fails and changes nothing, starting the `APPROVED` cycle succeeds. -/
theorem start_cycle_guarded_witness :
    start_cycle demoCycleStore 0 5 =
      (demoCycleStore, Except.error ApiError.invalidState) ∧
    (start_cycle demoCycleStore 1 5).2 = Except.ok () := by
  have h0 := start_cycle_guarded demoCycleStore 0 (demoCycle .scheduled) 5 rfl
  have h1 := start_cycle_guarded demoCycleStore 1 (demoCycle .approved) 5 rfl
  refine ⟨(h0.1 (by decide)).1, ?_⟩
  rw [h1.2 rfl]

/-! C4 — the plan approvals are unconditional. -/

/-- C4: `approve_opd` and `approve_daycare` fail (with `notFound`) only
when the plan row is missing; on any existing plan, regardless of its
current status, they overwrite the approver, timestamp and notes and
set the status to `PENDING_DAYCARE_APPROVAL` / `APPROVED`. -/
theorem approvals_unconditional (s : Store) (pid : Nat) (doctor : Option Nat)
    (notes : Option String) (now : Nat) :
    (s.plans pid = none →
      approve_opd s pid doctor notes now = (s, Except.error ApiError.notFound) ∧
      approve_daycare s pid doctor notes now = (s, Except.error ApiError.notFound)) ∧
    (∀ p, s.plans pid = some p →
      approve_opd s pid doctor notes now =
        (setPlan s pid
          { p with
            opdApprovedBy := doctor
            opdApprovedAt := some now
            opdNotes := notes
            status := .pendingDaycareApproval }, Except.ok ()) ∧
      approve_daycare s pid doctor notes now =
        (setPlan s pid
          { p with
            daycareApprovedBy := doctor
            daycareApprovedAt := some now
            daycareNotes := notes
            status := .approved }, Except.ok ())) := by
  constructor
  · intro h
    constructor <;> simp [approve_opd, approve_daycare, h]
  · intro p h
    constructor <;> simp [approve_opd, approve_daycare, h]

/-- A plan row that is already `ACTIVE`, to exercise the approvals on a
state outside the nominal approval pipeline. -/
def demoActivePlan : TreatmentPlan :=
  { patientId := 0
    protocolName := "ABVD"
    startDate := none
    plannedCycles := 4
    completedCycles := 0
    status := .active
    opdApprovedBy := none
    opdApprovedAt := none
    opdNotes := none
    daycareApprovedBy := none
    daycareApprovedAt := none
    daycareNotes := none }

/-- A store holding only `demoActivePlan` at plan id 0. -/
def demoPlanStore : Store :=
  { patients := 1
    nextPlanId := 1
    plans := fun i => if i = 0 then some demoActivePlan else none
    nextCycleId := 0
    cycles := fun _ => none }

/-- Witness for C4 at concrete inputs: a missing plan id yields
`notFound`, and both approvals succeed on an `ACTIVE` plan. -/
theorem approvals_unconditional_witness :
    (approve_opd demoPlanStore 3 none none 0).2 = Except.error ApiError.notFound ∧
    (approve_opd demoPlanStore 0 (some 7) (some "ok") 2).2 = Except.ok () ∧
    (approve_daycare demoPlanStore 0 (some 8) none 3).2 = Except.ok () := by
  have hmiss := approvals_unconditional demoPlanStore 3 none none 0
  have hopd := approvals_unconditional demoPlanStore 0 (some 7) (some "ok") 2
  have hdc := approvals_unconditional demoPlanStore 0 (some 8) none 3
  refine ⟨?_, ?_, ?_⟩
  · rw [(hmiss.1 rfl).1]
  · rw [(hopd.2 demoActivePlan rfl).1]
  · rw [(hdc.2 demoActivePlan rfl).2]

/-! C5 — the derived BSA property. -/

/-- C5: for every patient, the derived `bsa` property equals
`round(sqrt(height_cm * weight_kg / 3600), 2)` when both measurements
are present and `0` when either is missing (the value promised by the
spec, `bsa_spec`); it is a derived property of the row, not a stored
column. -/
theorem bsa_matches_spec (p : Patient) : p.bsa = bsa_spec p := by
  obtain ⟨h, w⟩ := p
  cases h with
  | none => rfl
  | some hv =>
    cases w with
    | none => rfl
    | some wv =>
      show (if hv ≠ 0 ∧ wv ≠ 0 then round2 (Real.sqrt (hv * wv / 3600)) else 0) =
        round2 (Real.sqrt (hv * wv / 3600))
      rcases eq_or_ne hv 0 with h0 | h0
      · subst h0
        norm_num [round2, Real.sqrt_zero]
      rcases eq_or_ne wv 0 with w0 | w0
      · subst w0
        norm_num [round2, Real.sqrt_zero]
      simp [h0, w0]

/-! C6 — the dose calculator's cap behaviour. -/

/-- The cap table only holds the values 2 and 30. -/
theorem dose_caps_values {name : String} {cap : ℚ}
    (h : dose_caps.lookup name = some cap) : cap = 2 ∨ cap = 30 := by
  simp only [dose_caps, List.lookup] at h
  split at h
  · exact Or.inl (Option.some.inj h).symm
  · split at h
    · exact Or.inr (Option.some.inj h).symm
    · exact absurd h (by simp)

/-- C6: the returned dose is `dose_per_m2 * bsa` rounded to two
decimals, truncated to the cap (with a "Capped at X mg" note) when the
drug is in the cap table — looked up on the lowercased name — and the
rounded raw dose exceeds its cap; a drug name outside the cap table
produces no cap adjustment and no error.  Concretely, vincristine at
`dose_per_m2 = 2, bsa = 2` returns 2 mg with the cap note. -/
theorem dose_cap_behavior (r : DoseRequest) :
    (dose_caps.lookup (strLower r.drug_name) = none →
      (calculate_dose r).dose = round2 (r.dose_per_m2 * r.bsa) ∧
      ∀ cap, Adjustment.cappedAt cap ∉ (calculate_dose r).adjustments) ∧
    (∀ cap, dose_caps.lookup (strLower r.drug_name) = some cap →
      (round2 (r.dose_per_m2 * r.bsa) > cap →
        (calculate_dose r).dose = cap ∧
        Adjustment.cappedAt cap ∈ (calculate_dose r).adjustments) ∧
      (round2 (r.dose_per_m2 * r.bsa) ≤ cap →
        (calculate_dose r).dose = round2 (r.dose_per_m2 * r.bsa))) ∧
    calculate_dose
        { drug_name := "vincristine", dose_per_m2 := 2, bsa := 2,
          patient_age := 50, renal_function := none, liver_function := none } =
      { dose := 2, unit := "mg", adjustments := [Adjustment.cappedAt 2],
        warnings := [] } := by
  have hvin : dose_caps.lookup (strLower "vincristine") = some 2 := rfl
  have hr2 : round2 (2 : ℚ) = 2 := round2_eq_self 200 (by norm_num)
  refine ⟨?_, ?_, by simp [calculate_dose, hvin, exceeds, hr2]⟩
  · intro h
    refine ⟨by simp [calculate_dose, h], ?_⟩
    intro cap
    simp only [calculate_dose, h, List.nil_append]
    split_ifs <;> simp
  · intro cap hcap
    have hfix : round2 cap = cap := by
      rcases dose_caps_values hcap with h2 | h30
      · subst h2; exact round2_eq_self 200 (by norm_num)
      · subst h30; exact round2_eq_self 3000 (by norm_num)
    constructor
    · intro hraw
      have hprod : r.dose_per_m2 * r.bsa > cap := by
        by_contra hle
        push_neg at hle
        have hm := round2_mono hle
        rw [hfix] at hm
        exact absurd hraw (not_lt.mpr hm)
      constructor
      · simp [calculate_dose, hcap, hprod, hfix]
      · simp [calculate_dose, hcap, hprod]
    · intro hle
      by_cases hprod : r.dose_per_m2 * r.bsa > cap
      · have h1 : cap ≤ round2 (r.dose_per_m2 * r.bsa) := by
          have hm := round2_mono (le_of_lt hprod)
          rwa [hfix] at hm
        have heq : round2 (r.dose_per_m2 * r.bsa) = cap := le_antisymm hle h1
        simp [calculate_dose, hcap, hprod, hfix, heq]
      · simp [calculate_dose, hcap, hprod]

/-- A capped request through the other cap-table row, with a
mixed-case drug name: bleomycin at `20 mg/m2 × 1.6 m2 = 32 mg > 30`. -/
def demoBleoRequest : DoseRequest :=
  { drug_name := "Bleomycin", dose_per_m2 := 20, bsa := 1.6,
    patient_age := 50, renal_function := none, liver_function := none }

/-- Witness for C6 at a concrete input: the bleomycin request is capped
to 30 mg and carries the cap note. -/
theorem dose_cap_behavior_witness :
    (calculate_dose demoBleoRequest).dose = 30 ∧
    Adjustment.cappedAt 30 ∈ (calculate_dose demoBleoRequest).adjustments := by
  have h := (dose_cap_behavior demoBleoRequest).2.1 30 rfl
  have hprod : demoBleoRequest.dose_per_m2 * demoBleoRequest.bsa = 32 := by
    norm_num [demoBleoRequest]
  refine h.1 ?_
  rw [hprod, round2_eq_self 3200 (by norm_num)]
  norm_num

/-! C7 — the febrile-neutropenia risk entry and the overall score. -/

/-- C7: the risk assessment's febrile-neutropenia entry (always exactly
one) has probability `min(0.2 + 0.05 * cycle_number, 0.5)` and severity
"high" exactly when that probability is strictly above 0.3 (else
"moderate"); the returned overall score is the arithmetic mean of the
entries' probabilities, 0 when there are none; at `cycle_number = 6`
the probability is 0.5 with severity "high". -/
theorem neutropenia_risk_profile (p : RiskProfile) (protocolName : String)
    (n : Int) :
    (assess_risk p protocolName n).risks.filter
        (fun e => e.risk = "Febrile neutropenia") =
      [{ category := "Hematological"
         risk := "Febrile neutropenia"
         probability := min (0.2 + (n : ℚ) * 0.05) 0.5
         severity :=
           if min (0.2 + (n : ℚ) * 0.05) 0.5 > 0.3 then "high" else "moderate"
         recommendations := ["G-CSF prophylaxis if risk > 20%",
                             "Patient education on fever management"] }] ∧
    (assess_risk p protocolName n).overall_risk_score =
      (if (assess_risk p protocolName n).risks = [] then 0
       else ((assess_risk p protocolName n).risks.map (·.probability)).sum /
         ((assess_risk p protocolName n).risks.length : ℚ)) ∧
    (assess_risk ⟨50, []⟩ "ABVD" 6).risks =
      [{ category := "Hematological"
         risk := "Febrile neutropenia"
         probability := 0.5
         severity := "high"
         recommendations := ["G-CSF prophylaxis if risk > 20%",
                             "Patient education on fever management"] }] := by
  have hmin : min ((0.2 : ℚ) + ((6 : ℤ) : ℚ) * 0.05) 0.5 = 0.5 := by norm_num
  refine ⟨?_, ?_, by simp [assess_risk, hmin]; norm_num⟩
  · simp only [assess_risk, List.filter_append]
    split_ifs <;> simp [List.filter]
  · simp only [assess_risk, List.isEmpty_iff]

/-! C8 — the symptom-triage score and alert level. -/

/-- Modelled from the claim wording: the sum of the six independent
weighted contributions (fever +0.4, nausea ≥ 7 +0.3, pain ≥ 7 +0.3,
fatigue ≥ 8 +0.2, diarrhea +0.2, mouth sores +0.15). -/
def symptomScoreSpec (s : SymptomInput) : ℚ :=
  (if s.has_fever then 0.4 else 0) +
  (if s.nausea_score ≥ 7 then 0.3 else 0) +
  (if s.pain_score ≥ 7 then 0.3 else 0) +
  (if s.fatigue_score ≥ 8 then 0.2 else 0) +
  (if s.has_diarrhea then 0.2 else 0) +
  (if s.has_mouth_sores then 0.15 else 0)

/-- Every reachable score is a multiple of 1/20, so the final
`round(score, 2)` never changes it. -/
theorem symptomScoreSpec_round (s : SymptomInput) :
    round2 (symptomScoreSpec s) = symptomScoreSpec s := by
  unfold symptomScoreSpec
  split_ifs <;> norm_num [round2, round_eq]

/-- The symptom payload of the claim's example: fever plus nausea 8. -/
def demoSymptoms : SymptomInput :=
  { has_fever := true, nausea_score := 8, pain_score := 0, fatigue_score := 0,
    has_diarrhea := false, has_mouth_sores := false }

/-- C8: the returned severity score is exactly the sum of the six
independent weighted contributions, and the alert level is "urgent"
when that score is strictly above 0.6, "monitor" when strictly above
0.3, else "normal"; `{has_fever: true, nausea_score: 8}` scores 0.7
with alert level "urgent". -/
theorem symptom_triage_score (s : SymptomInput) :
    (analyze_symptoms s).severity_score = symptomScoreSpec s ∧
    (analyze_symptoms s).alert_level =
      (if (analyze_symptoms s).severity_score > 0.6 then "urgent"
       else if (analyze_symptoms s).severity_score > 0.3 then "monitor"
       else "normal") ∧
    (analyze_symptoms demoSymptoms).severity_score = 0.7 ∧
    (analyze_symptoms demoSymptoms).alert_level = "urgent" := by
  have hscore : (analyze_symptoms s).severity_score = symptomScoreSpec s :=
    symptomScoreSpec_round s
  have hv : symptomScoreSpec demoSymptoms = 0.7 := by
    norm_num [symptomScoreSpec, demoSymptoms]
  have hdemo : (analyze_symptoms demoSymptoms).severity_score = 0.7 := by
    rw [show (analyze_symptoms demoSymptoms).severity_score =
        round2 (symptomScoreSpec demoSymptoms) from rfl, hv]
    exact round2_eq_self 70 (by norm_num)
  refine ⟨hscore, ?_, hdemo, ?_⟩
  · rw [hscore]
    rfl
  · show (if symptomScoreSpec demoSymptoms > 0.6 then "urgent"
      else if symptomScoreSpec demoSymptoms > 0.3 then "monitor"
      else "normal") = "urgent"
    rw [hv]
    norm_num

/-! C9 — the drug-interaction lookup. -/

/-- C9: an interaction-table entry is returned exactly when it matches
under the claim's disjunction, comparing lowercased names — (drug1 ∈
chemo ∧ drug2 ∈ meds) ∨ (drug2 ∈ chemo ∧ drug1 ∈ meds) ∨ (both ∈
chemo) — and all matching entries are returned; for
chemo=["methotrexate"], meds=["ibuprofen"] the result is exactly one
entry, with severity "high". -/
theorem interaction_lookup_matches (chemo meds : List String) :
    (∀ e, e ∈ (check_drug_interactions chemo meds).interactions ↔
      e ∈ interactions_db ∧
        ((e.1.1 ∈ chemo.map strLower ∧ e.1.2 ∈ meds.map strLower) ∨
         (e.1.2 ∈ chemo.map strLower ∧ e.1.1 ∈ meds.map strLower) ∨
         (e.1.1 ∈ chemo.map strLower ∧ e.1.2 ∈ chemo.map strLower))) ∧
    (check_drug_interactions ["methotrexate"] ["ibuprofen"]).interactions =
      [(("methotrexate", "ibuprofen"),
        { severity := "high"
          effect := "Increased methotrexate toxicity"
          recommendation := "Avoid concomitant use" })] ∧
    (check_drug_interactions ["methotrexate"] ["ibuprofen"]).interactions_found
      = 1 := by
  refine ⟨?_, by decide, by decide⟩
  intro e
  simp only [check_drug_interactions, List.mem_filter, Bool.or_eq_true,
    Bool.and_eq_true, decide_eq_true_eq]
  tauto

/-! C10 — the risks list is never empty, but the overall score is not
always positive: `cycle_number` is an unconstrained `int`, and at
`cycle_number = -4` the neutropenia probability `min(0.2 - 0.2, 0.5)`
is 0, so a patient with no other risk entries scores exactly 0. -/

/-- Membership in a conditional singleton list forces equality. -/
theorem mem_ite_singleton {α : Type} {c : Prop} [Decidable c] {x e : α}
    (h : e ∈ (if c then [x] else [])) : e = x := by
  split at h
  · simpa using h
  · simp at h

/-- Counterexample to C10: for a 50-year-old patient with no
comorbidities and `cycle_number = -4`, the risks list is (as always)
nonempty, but the overall risk score is not strictly positive. -/
theorem risk_score_counterexample :
    (assess_risk ⟨50, []⟩ "ABVD" (-4)).risks ≠ [] ∧
    ¬ (0 < (assess_risk ⟨50, []⟩ "ABVD" (-4)).overall_risk_score) := by
  constructor
  · simp [assess_risk]
  · norm_num [assess_risk, min_def]

/-- C10 (amended): the febrile-neutropenia entry is appended
unconditionally, so the risks list is never empty; and whenever
`cycle_number ≥ -3` (in particular for every real, positive cycle
number) all entry probabilities are positive, so the overall risk
score is strictly greater than 0. -/
theorem risk_entries_amended (p : RiskProfile) (protocolName : String)
    (n : Int) :
    (assess_risk p protocolName n).risks ≠ [] ∧
    (-3 ≤ n → 0 < (assess_risk p protocolName n).overall_risk_score) := by
  have hne : (assess_risk p protocolName n).risks ≠ [] := by simp [assess_risk]
  refine ⟨hne, ?_⟩
  intro hn
  have hq : (-3 : ℚ) ≤ (n : ℚ) := by exact_mod_cast hn
  have hneutro : 0 < min ((0.2 : ℚ) + (n : ℚ) * 0.05) 0.5 := by
    apply lt_min
    · linarith
    · norm_num
  have hpos : ∀ e ∈ (assess_risk p protocolName n).risks, 0 < e.probability := by
    intro e he
    simp only [assess_risk, List.mem_append, List.mem_singleton] at he
    rcases he with ((h | h) | h) | h
    · rw [mem_ite_singleton h]; norm_num
    · rw [mem_ite_singleton h]; norm_num
    · rw [mem_ite_singleton h]; norm_num
    · rw [h]; exact hneutro
  have hsum : 0 < ((assess_risk p protocolName n).risks.map (·.probability)).sum := by
    apply List.sum_pos
    · intro x hx
      obtain ⟨e, he, rfl⟩ := List.mem_map.mp hx
      exact hpos e he
    · simp [hne]
  have hlen : 0 < (((assess_risk p protocolName n).risks.length : ℚ)) := by
    have hl := List.length_pos.mpr hne
    exact_mod_cast hl
  have hscore : (assess_risk p protocolName n).overall_risk_score =
      ((assess_risk p protocolName n).risks.map (·.probability)).sum /
        (((assess_risk p protocolName n).risks.length : ℚ)) := by
    show (if (assess_risk p protocolName n).risks.isEmpty then (0 : ℚ)
      else ((assess_risk p protocolName n).risks.map (·.probability)).sum /
        (((assess_risk p protocolName n).risks.length : ℚ))) = _
    rw [if_neg]
    simp [List.isEmpty_iff, hne]
  rw [hscore]
  exact div_pos hsum hlen

/-- Witness for the amended C10 at a concrete input. -/
theorem risk_entries_amended_witness :
    (assess_risk ⟨50, []⟩ "ABVD" 1).risks ≠ [] ∧
    0 < (assess_risk ⟨50, []⟩ "ABVD" 1).overall_risk_score := by
  have h := risk_entries_amended ⟨50, []⟩ "ABVD" 1
  exact ⟨h.1, h.2 (by norm_num)⟩

/-! C3 — the `completed_cycles <= planned_cycles` invariant.  The code
does not enforce it: `complete_cycle` increments unconditionally, so
completing more cycles than planned (here, completing the same plan's
cycles twice) drives the count past `planned_cycles`. -/

/-- Number of `complete_cycle` requests in a trace. -/
def countCompletes : List Op → Nat
  | [] => 0
  | Op.completeCycle _ _ _ _ :: rest => countCompletes rest + 1
  | _ :: rest => countCompletes rest

/-- A request that does not modify any plan's `planned_cycles` field:
anything but an update that sets `planned_cycles`. -/
def Op.preservesPlanned : Op → Prop
  | .updatePlan _ u => u.plannedCycles = none
  | _ => True

/-- A run that creates a plan with `planned_cycles = 1`, creates one
cycle, and completes it twice. -/
def overCompleteOps : List Op :=
  [Op.createPlan
      { patientId := 0, protocolName := "CHOP", startDate := none,
        plannedCycles := 1, opdNotes := none },
   Op.createCycle 0 1 0,
   Op.completeCycle 0 none none 0,
   Op.completeCycle 0 none none 1]

/-- Counterexample to C3: after `overCompleteOps` the plan is reachable
with `completed_cycles = 2 > 1 = planned_cycles`, so the invariant does
not hold in every reachable state. -/
theorem plan_invariant_counterexample :
    (((exec initStore overCompleteOps).plans 0).map
        fun q => (q.completedCycles, q.plannedCycles)) = some (2, 1) ∧
    ¬ ((2 : Int) ≤ (1 : Int)) :=
  ⟨by decide, by decide⟩

/-- The bound `completed_cycles ≤ planned_cycles` does hold along any
trace whose requests never lower `planned_cycles` and whose number of
completions stays within every plan's `planned_cycles` budget. -/
theorem completed_le_planned_exec :
    ∀ (ops : List Op) (s : Store),
      (∀ op ∈ ops, Op.preservesPlanned op) →
      (∀ i p, s.plans i = some p →
        p.completedCycles + (countCompletes ops : Int) ≤ p.plannedCycles) →
      (∀ d, Op.createPlan d ∈ ops → (countCompletes ops : Int) ≤ d.plannedCycles) →
      ∀ i q, (exec s ops).plans i = some q →
        q.completedCycles ≤ q.plannedCycles := by
  intro ops
  induction ops with
  | nil =>
      intro s _ hinv _ i q hq
      have h := hinv i q hq
      simpa [countCompletes] using h
  | cons op rest ih =>
      intro s hpres hinv hcre i q hq
      have hops : exec s (op :: rest) = exec (step s op) rest := rfl
      rw [hops] at hq
      refine ih (step s op) ?_ ?_ ?_ i q hq
      · intro o ho
        exact hpres o (List.mem_cons_of_mem _ ho)
      · intro j p hp
        cases op with
        | createPlan d =>
            have hcnt : countCompletes (Op.createPlan d :: rest) =
                countCompletes rest := rfl
            simp only [step, create_treatment_plan] at hp
            by_cases hpat : d.patientId < s.patients
            · rw [if_pos hpat] at hp
              simp only [setPlan] at hp
              by_cases hj : j = s.nextPlanId
              · rw [if_pos hj] at hp
                have hpd := hcre d (List.mem_cons_self _ _)
                rw [hcnt] at hpd
                cases hp
                simpa using hpd
              · rw [if_neg hj] at hp
                have h := hinv j p hp
                rw [hcnt] at h
                exact h
            · rw [if_neg hpat] at hp
              have h := hinv j p hp
              rw [hcnt] at h
              exact h
        | updatePlan pid u =>
            have hcnt : countCompletes (Op.updatePlan pid u :: rest) =
                countCompletes rest := rfl
            have hu : u.plannedCycles = none := hpres _ (List.mem_cons_self _ _)
            simp only [step, update_treatment_plan] at hp
            cases hpl : s.plans pid with
            | none =>
                rw [hpl] at hp
                have h := hinv j p hp
                rw [hcnt] at h
                exact h
            | some p0 =>
                rw [hpl] at hp
                simp only [setPlan] at hp
                by_cases hj : j = pid
                · rw [if_pos hj] at hp
                  cases hp
                  have h := hinv j p0 (hj ▸ hpl)
                  rw [hcnt] at h
                  simpa [applyPlanUpdate, hu] using h
                · rw [if_neg hj] at hp
                  have h := hinv j p hp
                  rw [hcnt] at h
                  exact h
        | approveOpd pid doctor notes now =>
            have hcnt : countCompletes (Op.approveOpd pid doctor notes now :: rest) =
                countCompletes rest := rfl
            simp only [step, approve_opd] at hp
            cases hpl : s.plans pid with
            | none =>
                rw [hpl] at hp
                have h := hinv j p hp
                rw [hcnt] at h
                exact h
            | some p0 =>
                rw [hpl] at hp
                simp only [setPlan] at hp
                by_cases hj : j = pid
                · rw [if_pos hj] at hp
                  cases hp
                  have h := hinv j p0 (hj ▸ hpl)
                  rw [hcnt] at h
                  simpa using h
                · rw [if_neg hj] at hp
                  have h := hinv j p hp
                  rw [hcnt] at h
                  exact h
        | approveDaycare pid doctor notes now =>
            have hcnt : countCompletes (Op.approveDaycare pid doctor notes now :: rest) =
                countCompletes rest := rfl
            simp only [step, approve_daycare] at hp
            cases hpl : s.plans pid with
            | none =>
                rw [hpl] at hp
                have h := hinv j p hp
                rw [hcnt] at h
                exact h
            | some p0 =>
                rw [hpl] at hp
                simp only [setPlan] at hp
                by_cases hj : j = pid
                · rw [if_pos hj] at hp
                  cases hp
                  have h := hinv j p0 (hj ▸ hpl)
                  rw [hcnt] at h
                  simpa using h
                · rw [if_neg hj] at hp
                  have h := hinv j p hp
                  rw [hcnt] at h
                  exact h
        | createCycle pid cn sd =>
            have hcnt : countCompletes (Op.createCycle pid cn sd :: rest) =
                countCompletes rest := rfl
            simp only [step, create_cycle] at hp
            cases hpl : s.plans pid with
            | none =>
                rw [hpl] at hp
                have h := hinv j p hp
                rw [hcnt] at h
                exact h
            | some p0 =>
                rw [hpl] at hp
                simp only [setCycle] at hp
                have h := hinv j p hp
                rw [hcnt] at h
                exact h
        | approveCycle cid doctor notes now =>
            have hcnt : countCompletes (Op.approveCycle cid doctor notes now :: rest) =
                countCompletes rest := rfl
            simp only [step, approve_cycle] at hp
            cases hcy : s.cycles cid with
            | none =>
                rw [hcy] at hp
                have h := hinv j p hp
                rw [hcnt] at h
                exact h
            | some c =>
                rw [hcy] at hp
                simp only [setCycle] at hp
                have h := hinv j p hp
                rw [hcnt] at h
                exact h
        | startCycle cid now =>
            have hcnt : countCompletes (Op.startCycle cid now :: rest) =
                countCompletes rest := rfl
            simp only [step, start_cycle] at hp
            cases hcy : s.cycles cid with
            | none =>
                rw [hcy] at hp
                have h := hinv j p hp
                rw [hcnt] at h
                exact h
            | some c =>
                rw [hcy] at hp
                simp only [setCycle] at hp
                by_cases hst : c.status ≠ CycleStatus.approved
                · rw [if_pos hst] at hp
                  have h := hinv j p hp
                  rw [hcnt] at h
                  exact h
                · rw [if_neg hst] at hp
                  have h := hinv j p hp
                  rw [hcnt] at h
                  exact h
        | completeCycle cid dn fu now =>
            have hcnt : countCompletes (Op.completeCycle cid dn fu now :: rest) =
                countCompletes rest + 1 := rfl
            simp only [step, complete_cycle] at hp
            cases hcy : s.cycles cid with
            | none =>
                rw [hcy] at hp
                have h := hinv j p hp
                rw [hcnt] at h
                push_cast at h ⊢
                omega
            | some c =>
                rw [hcy] at hp
                simp only [setCycle] at hp
                cases hpl : s.plans c.planId with
                | none =>
                    rw [hpl] at hp
                    have h := hinv j p hp
                    rw [hcnt] at h
                    push_cast at h ⊢
                    omega
                | some p0 =>
                    rw [hpl] at hp
                    simp only [setPlan] at hp
                    by_cases hj : j = c.planId
                    · rw [if_pos hj] at hp
                      cases hp
                      have h := hinv j p0 (hj ▸ hpl)
                      rw [hcnt] at h
                      push_cast at h ⊢
                      omega
                    · rw [if_neg hj] at hp
                      have h := hinv j p hp
                      rw [hcnt] at h
                      push_cast at h ⊢
                      omega
      · intro d hd
        have h := hcre d (List.mem_cons_of_mem _ hd)
        have hle : countCompletes rest ≤ countCompletes (op :: rest) := by
          cases op <;> simp [countCompletes]
        have hc : (countCompletes rest : Int) ≤ countCompletes (op :: rest) := by
          exact_mod_cast hle
        exact le_trans hc h

/-- C3 (amended): the code does not enforce
`completed_cycles <= planned_cycles` in every reachable state (see the
counterexample); what holds is (1) the invariant is maintained along
every trace whose requests never set `planned_cycles` and whose number
of `complete_cycle` requests stays within every plan's
`planned_cycles`, and (2) whenever a `complete_cycle` request changes a
plan's counter and the new count has reached (or passed)
`planned_cycles`, that plan's status is `COMPLETED`. -/
theorem plan_invariant_amended :
    (∀ (s : Store) (ops : List Op),
      (∀ op ∈ ops, Op.preservesPlanned op) →
      (∀ i p, s.plans i = some p →
        p.completedCycles + (countCompletes ops : Int) ≤ p.plannedCycles) →
      (∀ d, Op.createPlan d ∈ ops → (countCompletes ops : Int) ≤ d.plannedCycles) →
      ∀ i q, (exec s ops).plans i = some q →
        q.completedCycles ≤ q.plannedCycles) ∧
    (∀ (s : Store) (cid : Nat) (dn fu : Option String) (now : Nat) (j : Nat)
        (p q : TreatmentPlan),
      s.plans j = some p →
      (step s (Op.completeCycle cid dn fu now)).plans j = some q →
      q.completedCycles ≠ p.completedCycles →
      q.plannedCycles ≤ q.completedCycles →
      q.status = PlanStatus.completed) := by
  constructor
  · intro s ops h1 h2 h3
    exact completed_le_planned_exec ops s h1 h2 h3
  · intro s cid dn fu now j p q hp hq hne hge
    simp only [step, complete_cycle] at hq
    cases hcy : s.cycles cid with
    | none =>
        rw [hcy] at hq
        rw [hp] at hq
        cases hq
        exact absurd rfl hne
    | some c =>
        rw [hcy] at hq
        simp only [setCycle] at hq
        cases hpl : s.plans c.planId with
        | none =>
            rw [hpl] at hq
            rw [hp] at hq
            cases hq
            exact absurd rfl hne
        | some p0 =>
            rw [hpl] at hq
            simp only [setPlan] at hq
            by_cases hj : j = c.planId
            · rw [if_pos hj] at hq
              cases hq
              rw [hj] at hp
              rw [hp] at hpl
              cases hpl
              simp only
              rw [if_pos]
              simpa using hge
            · rw [if_neg hj] at hq
              rw [hp] at hq
              cases hq
              exact absurd rfl hne

/-- A run within budget: `planned_cycles = 2`, one cycle, one completion. -/
def withinBudgetOps : List Op :=
  [Op.createPlan
      { patientId := 0, protocolName := "CHOP", startDate := none,
        plannedCycles := 2, opdNotes := none },
   Op.createCycle 0 1 0,
   Op.completeCycle 0 none none 0]

/-- The plan row reached by `withinBudgetOps`. -/
def withinBudgetPlan : TreatmentPlan :=
  { patientId := 0, protocolName := "CHOP", startDate := none,
    plannedCycles := 2, completedCycles := 1, status := .draft,
    opdApprovedBy := none, opdApprovedAt := none, opdNotes := none,
    daycareApprovedBy := none, daycareApprovedAt := none, daycareNotes := none }

/-- A one-plan, one-cycle store about to complete its last planned cycle. -/
def lastCyclePlan : TreatmentPlan :=
  { patientId := 0, protocolName := "CHOP", startDate := none,
    plannedCycles := 1, completedCycles := 0, status := .active,
    opdApprovedBy := none, opdApprovedAt := none, opdNotes := none,
    daycareApprovedBy := none, daycareApprovedAt := none, daycareNotes := none }

/-- The in-progress cycle owned by `lastCyclePlan`. -/
def lastCycleCyc : TreatmentCycle :=
  { planId := 0, cycleNumber := 1, scheduledDate := 0,
    status := .inProgress, daycareDoctorId := none,
    approvedAt := none, approvalNotes := none, startedAt := some 3,
    completedAt := none, dischargeNotes := none,
    followUpInstructions := none }

/-- The store holding `lastCyclePlan` and its in-progress cycle. -/
def lastCycleStore : Store :=
  { patients := 1
    nextPlanId := 1
    plans := fun i => if i = 0 then some lastCyclePlan else none
    nextCycleId := 1
    cycles := fun i => if i = 0 then some lastCycleCyc else none }

/-- The plan row after completing the last planned cycle. -/
def lastCyclePlanDone : TreatmentPlan :=
  { lastCyclePlan with completedCycles := 1, status := .completed }

/-- Witness for the amended C3 at concrete runs: a one-completion run
against a two-cycle budget keeps the invariant, and completing the last
planned cycle flips the plan to `COMPLETED`. -/
theorem plan_invariant_amended_witness :
    withinBudgetPlan.completedCycles ≤ withinBudgetPlan.plannedCycles ∧
    lastCyclePlanDone.status = PlanStatus.completed := by
  constructor
  · refine plan_invariant_amended.1 initStore withinBudgetOps ?_ ?_ ?_ 0
      withinBudgetPlan (by decide)
    · intro op hop
      simp only [withinBudgetOps, List.mem_cons, List.not_mem_nil, or_false] at hop
      rcases hop with rfl | rfl | rfl <;> trivial
    · intro i p h
      simp [initStore] at h
    · intro d hd
      simp only [withinBudgetOps, List.mem_cons, List.not_mem_nil, or_false] at hd
      rcases hd with hd | hd | hd <;> cases hd
      decide
  · exact plan_invariant_amended.2 lastCycleStore 0 none none 7 0
      lastCyclePlan lastCyclePlanDone (by decide) (by decide) (by decide) (by decide)

/-! C2 — `complete_cycle` and the create/approve/complete round trip. -/

/-- Executing a concatenated trace is executing the pieces in order. -/
theorem exec_append (s : Store) (l1 l2 : List Op) :
    exec s (l1 ++ l2) = exec (exec s l1) l2 := by
  induction l1 generalizing s with
  | nil => rfl
  | cons op rest ih => simp [exec, ih]

/-- Requests creating cycles `1, ..., n` of plan 0. -/
def createOps (n : Nat) : List Op :=
  (List.range n).map fun i => Op.createCycle 0 ((i : Int) + 1) 0

/-- Requests completing cycle rows `0, ..., j - 1`. -/
def completeOps (j : Nat) : List Op :=
  (List.range j).map fun i => Op.completeCycle i none none 2

/-- The claimed round trip: create a plan with `planned_cycles = n`,
approve both tiers, create `n` cycles, complete each once. -/
def roundTripOps (n : Nat) : List Op :=
  Op.createPlan
      { patientId := 0, protocolName := "CHOP", startDate := none,
        plannedCycles := (n : Int), opdNotes := none } ::
  Op.approveOpd 0 (some 1) none 0 ::
  Op.approveDaycare 0 (some 2) none 1 ::
  (createOps n ++ completeOps n)

/-- The plan row after creation and both approvals. -/
def planApproved (n : Nat) : TreatmentPlan :=
  { patientId := 0, protocolName := "CHOP", startDate := none,
    plannedCycles := (n : Int), completedCycles := 0, status := .approved,
    opdApprovedBy := some 1, opdApprovedAt := some 0, opdNotes := none,
    daycareApprovedBy := some 2, daycareApprovedAt := some 1,
    daycareNotes := none }

/-- Cycle row `i` right after creation (cycle number `i + 1`). -/
def schedCycle (i : Nat) : TreatmentCycle :=
  { planId := 0, cycleNumber := (i : Int) + 1, scheduledDate := 0,
    status := .scheduled, daycareDoctorId := none, approvedAt := none,
    approvalNotes := none, startedAt := none, completedAt := none,
    dischargeNotes := none, followUpInstructions := none }

/-- Cycle row `i` after its completion. -/
def doneCycle (i : Nat) : TreatmentCycle :=
  { schedCycle i with status := .completed, completedAt := some 2 }

/-- The plan row after `j` completions: counter at `j`, status
`COMPLETED` as soon as the counter has reached `planned_cycles`
(through at least one completion). -/
def planDone (n j : Nat) : TreatmentPlan :=
  { planApproved n with
    completedCycles := (j : Int)
    status := if n ≤ j ∧ 1 ≤ j then .completed else .approved }

/-- The store after the create + approve-opd + approve-daycare prefix. -/
def approvedStore (n : Nat) : Store :=
  step (step (step initStore
    (Op.createPlan
      { patientId := 0, protocolName := "CHOP", startDate := none,
        plannedCycles := (n : Int), opdNotes := none }))
    (Op.approveOpd 0 (some 1) none 0))
    (Op.approveDaycare 0 (some 2) none 1)

/-- After the prefix, plan 0 is the doubly-approved plan. -/
theorem approvedStore_plans (n : Nat) :
    (approvedStore n).plans 0 = some (planApproved n) := by
  simp [approvedStore, step, create_treatment_plan, approve_opd,
    approve_daycare, setPlan, initStore, planApproved]

/-- After the prefix, no cycle rows exist. -/
theorem approvedStore_cycles (n : Nat) :
    ∀ i, (approvedStore n).cycles i = none := by
  intro i
  simp [approvedStore, step, create_treatment_plan, approve_opd,
    approve_daycare, setPlan, initStore]

/-- After the prefix, the next cycle id is 0. -/
theorem approvedStore_nextCycleId (n : Nat) :
    (approvedStore n).nextCycleId = 0 := by
  simp [approvedStore, step, create_treatment_plan, approve_opd,
    approve_daycare, setPlan, initStore]

/-- Effect of the cycle-creation phase on a store with plan 0 present,
no cycles and next cycle id 0. -/
theorem exec_createOps (P : TreatmentPlan) (m : Nat) (t : Store)
    (h1 : t.plans 0 = some P) (h2 : t.nextCycleId = 0)
    (h3 : ∀ i, t.cycles i = none) :
    (exec t (createOps m)).plans = t.plans ∧
    (exec t (createOps m)).nextCycleId = m ∧
    ∀ i, (exec t (createOps m)).cycles i =
      if i < m then some (schedCycle i) else none := by
  induction m with
  | zero =>
      refine ⟨rfl, h2, ?_⟩
      intro i
      simpa [createOps, exec] using h3 i
  | succ m ih =>
      obtain ⟨ihp, ihn, ihc⟩ := ih
      have hsplit : createOps (m + 1) =
          createOps m ++ [Op.createCycle 0 ((m : Int) + 1) 0] := by
        simp [createOps, List.range_succ]
      rw [hsplit, exec_append]
      have hup0 : (exec t (createOps m)).plans 0 = some P := by
        rw [ihp]; exact h1
      refine ⟨?_, ?_, ?_⟩
      · show (step (exec t (createOps m)) (Op.createCycle 0 ((m : Int) + 1) 0)).plans = t.plans
        simp only [step, create_cycle, hup0, setCycle]
        exact ihp
      · show (step (exec t (createOps m)) (Op.createCycle 0 ((m : Int) + 1) 0)).nextCycleId = m + 1
        simp only [step, create_cycle, hup0, setCycle]
        rw [ihn]
      · intro i
        show (step (exec t (createOps m)) (Op.createCycle 0 ((m : Int) + 1) 0)).cycles i = _
        simp only [step, create_cycle, hup0, setCycle]
        rw [ihn]
        by_cases him : i = m
        · subst him
          rw [if_pos rfl, if_pos (Nat.lt_succ_self i)]
          rfl
        · rw [if_neg him, ihc i]
          by_cases hlt : i < m
          · rw [if_pos hlt, if_pos (Nat.lt_succ_of_lt hlt)]
          · rw [if_neg hlt, if_neg (by omega)]

/-- Effect of the completion phase: after `j ≤ m` completions, plan 0
carries counter `j` (status `COMPLETED` once the counter reaches the
planned count) and the first `j` cycle rows are completed. -/
theorem exec_completeOps (n m : Nat) (t : Store)
    (hp : t.plans 0 = some (planApproved n))
    (hc : ∀ i, t.cycles i = if i < m then some (schedCycle i) else none) :
    ∀ j, j ≤ m →
      (exec t (completeOps j)).plans 0 = some (planDone n j) ∧
      ∀ i, (exec t (completeOps j)).cycles i =
        if i < j then some (doneCycle i)
        else if i < m then some (schedCycle i) else none := by
  intro j
  induction j with
  | zero =>
      intro _
      constructor
      · show t.plans 0 = some (planDone n 0)
        rw [hp]
        congr 1
        simp only [planDone, planApproved, TreatmentPlan.mk.injEq, true_and,
          and_true, Nat.cast_zero]
        rw [if_neg (by omega)]
      · intro i
        show t.cycles i = _
        rw [hc i, if_neg (Nat.not_lt_zero i)]
  | succ j ih =>
      intro hjm
      obtain ⟨ihp, ihc⟩ := ih (Nat.le_of_succ_le hjm)
      have hsplit : completeOps (j + 1) =
          completeOps j ++ [Op.completeCycle j none none 2] := by
        simp [completeOps, List.range_succ]
      rw [hsplit, exec_append]
      have hcycj : (exec t (completeOps j)).cycles j = some (schedCycle j) := by
        rw [ihc j, if_neg (lt_irrefl j), if_pos (by omega)]
      constructor
      · show (step (exec t (completeOps j)) (Op.completeCycle j none none 2)).plans 0 =
          some (planDone n (j + 1))
        simp only [step, complete_cycle, hcycj, setCycle]
        have hpid : (schedCycle j).planId = 0 := rfl
        rw [hpid, ihp]
        simp only [setPlan, eq_self_iff_true, if_true]
        congr 1
        have hstat :
            (if (n : Int) ≤ (j : Int) + 1 then PlanStatus.completed
             else if n ≤ j ∧ 1 ≤ j then PlanStatus.completed
             else PlanStatus.approved) =
            (if n ≤ j + 1 ∧ 1 ≤ j + 1 then PlanStatus.completed
             else PlanStatus.approved) := by
          by_cases hA : n ≤ j + 1
          · rw [if_pos (show (n : Int) ≤ (j : Int) + 1 by exact_mod_cast hA),
              if_pos ⟨hA, Nat.succ_le_succ (Nat.zero_le j)⟩]
          · rw [if_neg (show ¬ (n : Int) ≤ (j : Int) + 1 by exact_mod_cast hA),
              if_neg (show ¬ (n ≤ j ∧ 1 ≤ j) from
                fun h => hA (Nat.le_succ_of_le h.1)),
              if_neg (show ¬ (n ≤ j + 1 ∧ 1 ≤ j + 1) from fun h => hA h.1)]
        simp only [planDone, planApproved, TreatmentPlan.mk.injEq, true_and,
          and_true, Nat.cast_add, Nat.cast_one]
        exact hstat
      · intro i
        show (step (exec t (completeOps j)) (Op.completeCycle j none none 2)).cycles i = _
        simp only [step, complete_cycle, hcycj, setCycle]
        have hpid : (schedCycle j).planId = 0 := rfl
        rw [hpid, ihp]
        simp only [setPlan]
        by_cases hij : i = j
        · subst hij
          rw [if_pos rfl, if_pos (Nat.lt_succ_self i)]
          rfl
        · rw [if_neg hij, ihc i]
          by_cases hlt : i < j
          · rw [if_pos hlt, if_pos (Nat.lt_succ_of_lt hlt)]
          · rw [if_neg hlt, if_neg (show ¬ i < j + 1 by omega)]

/-- C2: completing any existing cycle — whatever its current status —
marks it `COMPLETED`, increments the parent plan's `completed_cycles`
by exactly one in the same committed store, and flips the plan to
`COMPLETED` when the new count reaches `planned_cycles`; consequently
the full round trip (create a plan with `planned_cycles = n ≥ 1`,
approve both tiers, create `n` cycles, complete each once) ends with
`completed_cycles = n = planned_cycles` and plan status `COMPLETED`. -/
theorem complete_cycle_cascade :
    (∀ (s : Store) (cid : Nat) (c : TreatmentCycle) (p : TreatmentPlan)
        (dn fu : Option String) (now : Nat),
      s.cycles cid = some c → s.plans c.planId = some p →
      (complete_cycle s cid dn fu now).1.cycles cid =
        some { c with
               completedAt := some now, status := CycleStatus.completed,
               dischargeNotes := dn, followUpInstructions := fu } ∧
      (complete_cycle s cid dn fu now).1.plans c.planId =
        some { p with
               completedCycles := p.completedCycles + 1,
               status := if p.plannedCycles ≤ p.completedCycles + 1
                 then PlanStatus.completed else p.status } ∧
      (p.completedCycles + 1 = p.plannedCycles →
        ((complete_cycle s cid dn fu now).1.plans c.planId).map (·.status) =
          some PlanStatus.completed)) ∧
    (∀ n : Nat, 1 ≤ n → ∀ q,
      (exec initStore (roundTripOps n)).plans 0 = some q →
      q.completedCycles = (n : Int) ∧ q.plannedCycles = (n : Int) ∧
      q.status = PlanStatus.completed) := by
  constructor
  · intro s cid c p dn fu now hc hp
    have hcyc : (complete_cycle s cid dn fu now).1.cycles cid =
        some { c with
               completedAt := some now, status := CycleStatus.completed,
               dischargeNotes := dn, followUpInstructions := fu } := by
      simp [complete_cycle, hc, hp, setCycle, setPlan]
    have hpl : (complete_cycle s cid dn fu now).1.plans c.planId =
        some { p with
               completedCycles := p.completedCycles + 1,
               status := if p.plannedCycles ≤ p.completedCycles + 1
                 then PlanStatus.completed else p.status } := by
      simp [complete_cycle, hc, hp, setCycle, setPlan]
    refine ⟨hcyc, hpl, ?_⟩
    intro heq
    rw [hpl]
    simp [heq.symm.le]
  · intro n hn q hq
    have hrt : exec initStore (roundTripOps n) =
        exec (exec (approvedStore n) (createOps n)) (completeOps n) := by
      simp only [roundTripOps, exec]
      rw [exec_append]
      rfl
    obtain ⟨hcp, hcn, hcc⟩ := exec_createOps (planApproved n) n (approvedStore n)
      (approvedStore_plans n) (approvedStore_nextCycleId n)
      (approvedStore_cycles n)
    have hplans0 : (exec (approvedStore n) (createOps n)).plans 0 =
        some (planApproved n) := by
      rw [hcp]
      exact approvedStore_plans n
    obtain ⟨hfp, _⟩ := exec_completeOps n n (exec (approvedStore n) (createOps n))
      hplans0 hcc n le_rfl
    rw [hrt, hfp] at hq
    cases hq
    refine ⟨rfl, rfl, ?_⟩
    show (if n ≤ n ∧ 1 ≤ n then PlanStatus.completed else PlanStatus.approved) =
      PlanStatus.completed
    rw [if_pos ⟨le_rfl, hn⟩]

/-- Witness for C2: completing the last planned cycle of
`lastCycleStore` flips the plan to `COMPLETED`, and the round trip with
`n = 2` lands on the fully completed plan row. -/
theorem complete_cycle_cascade_witness :
    ((complete_cycle lastCycleStore 0 none none 9).1.plans 0).map
        (·.status) = some PlanStatus.completed ∧
    (planDone 2 2).completedCycles = (2 : Int) ∧
    (planDone 2 2).plannedCycles = (2 : Int) ∧
    (planDone 2 2).status = PlanStatus.completed := by
  constructor
  · exact (complete_cycle_cascade.1 lastCycleStore 0 lastCycleCyc lastCyclePlan
      none none 9 rfl rfl).2.2 (by decide)
  · have h2 := complete_cycle_cascade.2 2 (by norm_num) (planDone 2 2) (by decide)
    exact h2

end ChemoCare
